import Mathlib

/-!
# Verification of the corporate-tax extraction pipeline

Shallow embedding of `src/extract.py` (single-file Streamlit app).

Modelling conventions:
* Python `float` values are modelled as exact rationals (`ℚ`).  All the
  arithmetic the program performs on the amounts it extracts (sums,
  differences, products with the bracket rates, roundings) is modelled
  exactly; the claims under study are arithmetic identities that the spec
  asserts "exactly", and both the spec's sample values and the program's
  decimal literals are exactly representable.
* The external OpenAI call plus `json.loads` of its (fence-stripped)
  response are modelled by an `Option JsonObj` input to
  `extract_financial_data_with_ai`: `some o` is a successfully parsed JSON
  object, `none` is any failure of the call or of parsing (all such
  failures funnel into the single `except` branch of the source).  JSON
  objects are modelled as association lists of string keys and string
  values (the prompt demands string-number values, and the code pipes every
  value it reads through `str(...)`).
* Python's regular-expression classes `\s` and `\d` are Unicode-aware; the
  model uses their ASCII parts, which cover every input these claims
  mention.
* Python's `float(...)` string parser is modelled on finite decimal
  literals with optional sign, fraction and exponent; `inf`/`nan` spellings
  and digit-group underscores are outside the model.
* Totality of each Lean function models the "never raises" parts of the
  contracts.
-/

set_option maxRecDepth 4000

/-! ## Character classes (from the regexes in `clean_numeric_value`) -/

/-- ASCII part of Python's regex class `\s` (space, tab, LF, VT, FF, CR). -/
def isWsCh (c : Char) : Bool :=
  c.toNat == 32 || c.toNat == 9 || c.toNat == 10 || c.toNat == 11 ||
  c.toNat == 12 || c.toNat == 13

/-- Characters removed by `re.sub(r'[€$,\s]', '', ...)` in the source. -/
def isStripCh (c : Char) : Bool :=
  c == '€' || c == '$' || c == ',' || isWsCh c

/-- ASCII part of Python's regex class `\d`. -/
def isDigitCh (c : Char) : Bool :=
  decide (48 ≤ c.toNat ∧ c.toNat ≤ 57)

/-! ## Decimal digit strings -/

/-- Value of a big-endian list of decimal digit characters, as `int(...)`
and `float(...)` read the integral part of a match. -/
def digitsVal (ds : List Char) : ℕ :=
  ds.foldl (fun a c => 10 * a + (c.toNat - 48)) 0

/-- Value of the fractional digits after a decimal point. -/
def fracVal (ds : List Char) : ℚ :=
  (digitsVal ds : ℚ) / 10 ^ ds.length

/-- Fuel-indexed producer of the decimal digits of a natural number,
most significant first. -/
def natDecRepAux : ℕ → ℕ → List Char
  | 0, _ => []
  | fuel + 1, n =>
    if n = 0 then []
    else natDecRepAux fuel (n / 10) ++ [Char.ofNat (48 + n % 10)]

/-- Decimal representation of a natural number (Python `str` on a
non-negative `int`). -/
def natDecRep (n : ℕ) : List Char :=
  if n = 0 then ['0'] else natDecRepAux n n

/-- Characters of Python `str` on an `int`. -/
def intReprChars (i : ℤ) : List Char :=
  if i < 0 then '-' :: natDecRep i.natAbs else natDecRep i.natAbs

/-- Python `str` on an `int`. -/
def intRepr (i : ℤ) : String :=
  String.mk (intReprChars i)

/-! ## The regex search `-?\d+\.?\d*` of `clean_numeric_value` -/

/-- Longest digit run at the head of the list (greedy `\d+` / `\d*`),
with the remainder. -/
def takeDigits : List Char → List Char × List Char
  | [] => ([], [])
  | c :: rest =>
    if isDigitCh c then
      let p := takeDigits rest
      (c :: p.1, p.2)
    else ([], c :: rest)

/-- Value of a match of `\d+\.?\d*` starting at a digit: greedy digits,
an optional dot, then greedy fraction digits (as `float` then reads it). -/
def matchUnsigned (cs : List Char) : ℚ :=
  let p := takeDigits cs
  match p.2 with
  | '.' :: r2 => (digitsVal p.1 : ℚ) + fracVal (takeDigits r2).1
  | _ => (digitsVal p.1 : ℚ)

/-- Attempt to match `-?\d+\.?\d*` anchored at the head of the list,
returning the value `float` gives the matched text. -/
def matchNumAt (cs : List Char) : Option ℚ :=
  match cs with
  | [] => none
  | c :: rest =>
    if c = '-' then
      match rest with
      | d :: _ => if isDigitCh d then some (-(matchUnsigned rest)) else none
      | [] => none
    else if isDigitCh c then some (matchUnsigned cs) else none

/-- `re.search(r'-?\d+\.?\d*', ...)`: value of the leftmost match. -/
def searchNum : List Char → Option ℚ
  | [] => none
  | c :: rest =>
    match matchNumAt (c :: rest) with
    | some q => some q
    | none => searchNum rest

/-- The accounting-parentheses step of `clean_numeric_value`: a value
wholly wrapped in parentheses gets a minus sign prepended. -/
def parenFix (cs : List Char) : List Char :=
  if cs.head? = some '(' ∧ cs.getLast? = some ')' then
    '-' :: (cs.drop 1).dropLast
  else cs

/-! ## `clean_numeric_value` (src/extract.py lines 19–35) -/

/-- `clean_numeric_value(value)`: extract a numeric value from a string.
Mirrors the source: empty or literal `"0"` short-circuit to `0`; strip
`€`, `$`, commas and whitespace; treat a fully parenthesised value as
negative; return the leftmost `-?\d+\.?\d*` match, else `0`. -/
def clean_numeric_value (value : String) : ℚ :=
  if value = "" ∨ value = "0" then 0
  else
    let cleaned := (value.toList).filter (fun c => !isStripCh c)
    let cleaned2 := parenFix cleaned
    (searchNum cleaned2).getD 0

/-- Modelled from the spec (§4.1 sentence "Strip currency symbols (at
minimum `€`, `$`), percent signs, commas, and whitespace"): the strip set
the spec describes, which additionally contains `%`.  Used only to compare
the spec's description of the normalizer with the source's. -/
def specStripCh (c : Char) : Bool :=
  isStripCh c || c == '%'

/-- Modelled from the spec: the normalizer as §4.1 describes it, identical
to `clean_numeric_value` except that the cleanup also removes percent
signs.  Used only for the comparison demanded by claim C7. -/
def spec_normalize (value : String) : ℚ :=
  if value = "" ∨ value = "0" then 0
  else
    let cleaned := (value.toList).filter (fun c => !specStripCh c)
    let cleaned2 := parenFix cleaned
    (searchNum cleaned2).getD 0

/-! ## `calculate_netherlands_tax` (src/extract.py lines 37–45) -/

/-- Netherlands corporate tax, 2024 rates: two brackets, boundary 200000,
rates 19% and 25.8%, zero on non-positive income. -/
def calculate_netherlands_tax (taxable_income : ℚ) : ℚ :=
  if taxable_income ≤ 0 then 0
  else if taxable_income ≤ 200000 then taxable_income * 0.19
  else (200000 * 0.19) + ((taxable_income - 200000) * 0.258)

/-! ## Python rounding -/

/-- Python's `round(x)` (and the rounding of `format(x, ',.0f')`):
round half to even. -/
def roundHalfEven (q : ℚ) : ℤ :=
  let f := ⌊q⌋
  let r := q - f
  if r < 1 / 2 then f
  else if 1 / 2 < r then f + 1
  else if f % 2 = 0 then f else f + 1

/-! ## JSON objects as association lists -/

/-- A parsed JSON object with string values, as the extractor consumes and
produces it. -/
def JsonObj : Type := List (String × String)

/-- Python `dict.get(k, d)`. -/
def jget (o : JsonObj) (k d : String) : String :=
  match o with
  | [] => d
  | kv :: rest => if kv.1 = k then kv.2 else jget rest k d

/-- Python `k in dict`. -/
def hasKey (o : JsonObj) (k : String) : Bool :=
  match o with
  | [] => false
  | kv :: rest => if kv.1 = k then true else hasKey rest k

/-- Python `dict[k] = v`: replace the binding in place, else append. -/
def jset (o : JsonObj) (k v : String) : JsonObj :=
  match o with
  | [] => [(k, v)]
  | kv :: rest => if kv.1 = k then (k, v) :: rest else kv :: jset rest k v

/-! ## `extract_financial_data_with_ai` (src/extract.py lines 47–139) -/

/-- The fallback record of the `except` branch (lines 130–139). -/
def fallbackRecord : JsonObj :=
  [("company_name", ""), ("country", ""), ("total_revenue", "0"),
   ("total_expenses", "0"), ("depreciation", "0"), ("deductions", "0"),
   ("net_taxable_income", "0"), ("final_tax_owed", "0")]

/-- The extractor after the external call and `json.loads`: `some o` is a
successfully parsed JSON object, `none` is a failed call or unparsable
response (the `except` path).  On success the four base fields are read
through `clean_numeric_value`, the two derived fields are recomputed, and
all six numeric fields are written back as `str(int(round(...)))`
(lines 108–126). -/
def extract_financial_data_with_ai (parsed? : Option JsonObj) : JsonObj :=
  match parsed? with
  | some parsed_data =>
    let revenue := clean_numeric_value (jget parsed_data "total_revenue" "0")
    let expenses := clean_numeric_value (jget parsed_data "total_expenses" "0")
    let depreciation := clean_numeric_value (jget parsed_data "depreciation" "0")
    let deductions := clean_numeric_value (jget parsed_data "deductions" "0")
    let net_taxable := revenue - expenses - depreciation - deductions
    let final_tax := calculate_netherlands_tax net_taxable
    jset (jset (jset (jset (jset (jset parsed_data
      "total_revenue" (intRepr (roundHalfEven revenue)))
      "total_expenses" (intRepr (roundHalfEven expenses)))
      "depreciation" (intRepr (roundHalfEven depreciation)))
      "deductions" (intRepr (roundHalfEven deductions)))
      "net_taxable_income" (intRepr (roundHalfEven net_taxable)))
      "final_tax_owed" (intRepr (roundHalfEven final_tax))
  | none => fallbackRecord

/-- The numeric value a field of the extractor's record denotes, read back
through the repository's own normalizer (with the `.get(k, "0")` default
the downstream code uses). -/
def recordVal (r : JsonObj) (k : String) : ℚ :=
  clean_numeric_value (jget r k "0")

/-- The normalized value of one base field of the model's output
(lines 109–112). -/
def baseVal (o : JsonObj) (k : String) : ℚ :=
  clean_numeric_value (jget o k "0")

/-- The exact recomputed net taxable income (line 115), before rounding. -/
def netOf (o : JsonObj) : ℚ :=
  baseVal o "total_revenue" - baseVal o "total_expenses" -
  baseVal o "depreciation" - baseVal o "deductions"

/-! ## Python `float(...)` on strings (used by `format_currency`) -/

/-- Strip leading and trailing whitespace, as `float` does. -/
def trimWs (l : List Char) : List Char :=
  ((l.dropWhile isWsCh).reverse.dropWhile isWsCh).reverse

/-- Parse the mantissa `digits [ . digits ] | . digits` of a float
literal; `none` if neither side of the dot has a digit. -/
def parseMantissa (cs : List Char) : Option (ℚ × List Char) :=
  let p := takeDigits cs
  match p.2 with
  | '.' :: r2 =>
    let q := takeDigits r2
    if p.1 = [] ∧ q.1 = [] then none
    else some ((digitsVal p.1 : ℚ) + fracVal q.1, q.2)
  | _ => if p.1 = [] then none else some ((digitsVal p.1 : ℚ), p.2)

/-- Parse an optional exponent part `e|E [sign] digits`; an exponent
marker with no digits fails the whole parse. -/
def parseExpPart (cs : List Char) : Option (ℤ × List Char) :=
  match cs with
  | 'e' :: r | 'E' :: r =>
    let sp : ℤ × List Char :=
      match r with
      | '+' :: r2 => (1, r2)
      | '-' :: r2 => (-1, r2)
      | _ => (1, r)
    let q := takeDigits sp.2
    if q.1 = [] then none else some (sp.1 * (digitsVal q.1 : ℤ), q.2)
  | _ => some (0, cs)

/-- Multiply by the parsed power of ten. -/
def applyExp (m : ℚ) (e : ℤ) : ℚ :=
  if 0 ≤ e then m * 10 ^ e.toNat else m / 10 ^ (-e).toNat

/-- Parse the optional leading sign of a float literal. -/
def parseSign (cs : List Char) : ℚ × List Char :=
  match cs with
  | '+' :: r => (1, r)
  | '-' :: r => (-1, r)
  | _ => (1, cs)

/-- Python `float(s)` on a finite decimal literal: optional surrounding
whitespace, optional sign, mantissa, optional exponent, nothing left over;
`none` models `ValueError`.  (`inf`/`nan` spellings and underscores are
outside the model.) -/
def pyFloat? (s : String) : Option ℚ :=
  let sc := parseSign (trimWs s.toList)
  match parseMantissa sc.2 with
  | none => none
  | some mr =>
    match parseExpPart mr.2 with
    | none => none
    | some er => if er.2 = [] then some (sc.1 * applyExp mr.1 er.1) else none

/-! ## `format_currency` (src/extract.py lines 141–149) -/

/-- Split a reversed digit list into groups of three (the thousands
groups, least significant group first). -/
def chunk3 : List Char → List (List Char)
  | [] => []
  | [a] => [[a]]
  | [a, b] => [[a, b]]
  | a :: b :: c :: rest => [a, b, c] :: chunk3 rest

/-- Join groups with comma separators. -/
def joinComma : List (List Char) → List Char
  | [] => []
  | [g] => g
  | g :: g2 :: rest => g ++ ',' :: joinComma (g2 :: rest)

/-- Insert thousands separators into a digit string, as `format(n, ',d')`
does. -/
def commaGroup (ds : List Char) : List Char :=
  (joinComma (chunk3 ds.reverse)).reverse

/-- The digits-with-separators part of `f"{x:,.0f}"` for a non-negative
already-rounded value. -/
def fmtGroupChars (n : ℕ) : List Char :=
  commaGroup (natDecRep n)

/-- `format_currency(amount)`: format as currency with zero decimals and
thousands separators, the minus sign ahead of `€`; any `float(...)`
failure yields `"€0"` via the bare `except` (lines 141–149). -/
def format_currency (amount : String) : String :=
  match pyFloat? amount with
  | none => "€0"
  | some num =>
    if num < 0 then
      String.mk ('-' :: '€' :: fmtGroupChars (roundHalfEven (-num)).toNat)
    else
      String.mk ('€' :: fmtGroupChars (roundHalfEven num).toNat)

/-! ## `create_results_table` (src/extract.py lines 151–167) -/

/-- The rows of the results DataFrame, in display order, with the
`.get(..., "Not Found")` defaults of the source. -/
def create_results_table (financial_data : JsonObj) : List (String × String) :=
  [("Company Name", jget financial_data "company_name" "Not Found"),
   ("Country", jget financial_data "country" "Not Found"),
   ("Total Revenue", format_currency (jget financial_data "total_revenue" "0")),
   ("Total Expenses", format_currency (jget financial_data "total_expenses" "0")),
   ("Depreciation", format_currency (jget financial_data "depreciation" "0")),
   ("Deductions", format_currency (jget financial_data "deductions" "0")),
   ("Net Taxable Income", format_currency (jget financial_data "net_taxable_income" "0")),
   ("Final Tax Owed", format_currency (jget financial_data "final_tax_owed" "0"))]

/-! ## Lemmas about decimal digit strings -/

/-- All facts needed about a decimal digit character `Char.ofNat (48+d)`. -/
theorem digitChar_facts : ∀ d : ℕ, d < 10 →
    isStripCh (Char.ofNat (48 + d)) = false ∧
    isDigitCh (Char.ofNat (48 + d)) = true ∧
    isWsCh (Char.ofNat (48 + d)) = false ∧
    Char.ofNat (48 + d) ≠ '(' ∧ Char.ofNat (48 + d) ≠ ')' ∧
    Char.ofNat (48 + d) ≠ '-' ∧ Char.ofNat (48 + d) ≠ '+' ∧
    Char.ofNat (48 + d) ≠ ',' ∧ Char.ofNat (48 + d) ≠ '.' ∧
    Char.ofNat (48 + d) ≠ '%' ∧ Char.ofNat (48 + d) ≠ 'e' ∧
    Char.ofNat (48 + d) ≠ 'E' ∧ Char.ofNat (48 + d) ≠ '€' ∧
    (Char.ofNat (48 + d)).toNat = 48 + d := by decide

theorem digitsVal_snoc (l : List Char) (c : Char) :
    digitsVal (l ++ [c]) = 10 * digitsVal l + (c.toNat - 48) := by
  simp only [digitsVal, List.foldl_append, List.foldl_cons, List.foldl_nil]

theorem natDecRepAux_val : ∀ fuel n : ℕ, n ≤ fuel →
    digitsVal (natDecRepAux fuel n) = n := by
  intro fuel
  induction fuel with
  | zero => intro n h; interval_cases n; rfl
  | succ f ih =>
    intro n h
    by_cases h0 : n = 0
    · subst h0; simp [natDecRepAux, digitsVal]
    · have hdiv : n / 10 ≤ f := by
        have := Nat.div_lt_self (Nat.pos_of_ne_zero h0) (by norm_num : (1:ℕ) < 10)
        omega
      have hmod : n % 10 < 10 := Nat.mod_lt _ (by norm_num)
      simp only [natDecRepAux, h0, if_false, digitsVal_snoc, ih _ hdiv,
        (digitChar_facts (n % 10) hmod).2.2.2.2.2.2.2.2.2.2.2.2.2]
      omega

theorem natDecRepAux_mem : ∀ fuel n : ℕ, ∀ c ∈ natDecRepAux fuel n,
    ∃ d : ℕ, d < 10 ∧ c = Char.ofNat (48 + d) := by
  intro fuel
  induction fuel with
  | zero => intro n c hc; simp [natDecRepAux] at hc
  | succ f ih =>
    intro n c hc
    by_cases h0 : n = 0
    · subst h0; simp [natDecRepAux] at hc
    · simp only [natDecRepAux, h0, if_false, List.mem_append, List.mem_singleton] at hc
      rcases hc with hc | hc
      · exact ih _ c hc
      · exact ⟨n % 10, Nat.mod_lt _ (by norm_num), hc⟩

theorem natDecRep_mem (n : ℕ) : ∀ c ∈ natDecRep n,
    ∃ d : ℕ, d < 10 ∧ c = Char.ofNat (48 + d) := by
  intro c hc
  by_cases h0 : n = 0
  · subst h0
    simp only [natDecRep, if_true, List.mem_singleton] at hc
    exact ⟨0, by norm_num, by rw [hc]⟩
  · simp only [natDecRep, h0, if_false] at hc
    exact natDecRepAux_mem n n c hc

theorem natDecRep_val (n : ℕ) : digitsVal (natDecRep n) = n := by
  by_cases h0 : n = 0
  · subst h0; rfl
  · simp only [natDecRep, h0, if_false]
    exact natDecRepAux_val n n le_rfl

theorem natDecRep_ne_nil (n : ℕ) : natDecRep n ≠ [] := by
  by_cases h0 : n = 0
  · subst h0; simp [natDecRep]
  · simp only [natDecRep, h0, if_false]
    cases hf : natDecRepAux n n with
    | nil =>
      exfalso
      have := natDecRepAux_val n n le_rfl
      rw [hf] at this
      exact h0 (by simpa [digitsVal] using this.symm)
    | cons a l => simp

theorem natDecRep_digit (n : ℕ) : ∀ c ∈ natDecRep n, isDigitCh c = true := by
  intro c hc
  obtain ⟨d, hd, rfl⟩ := natDecRep_mem n c hc
  exact (digitChar_facts d hd).2.1

/-! ## Lemmas about the regex search -/

theorem takeDigits_all (l : List Char) (h : ∀ c ∈ l, isDigitCh c = true) :
    takeDigits l = (l, []) := by
  induction l with
  | nil => rfl
  | cons c rest ih =>
    have hc : isDigitCh c = true := h c (List.mem_cons_self c rest)
    have hr := ih (fun x hx => h x (List.mem_cons_of_mem c hx))
    simp [takeDigits, hc, hr]

theorem matchUnsigned_digits (l : List Char) (h : ∀ c ∈ l, isDigitCh c = true) :
    matchUnsigned l = (digitsVal l : ℚ) := by
  simp only [matchUnsigned, takeDigits_all l h]

theorem searchNum_digits (l : List Char) (hne : l ≠ [])
    (h : ∀ c ∈ l, isDigitCh c = true) :
    searchNum l = some (digitsVal l : ℚ) := by
  obtain ⟨c, rest, rfl⟩ := List.exists_cons_of_ne_nil hne
  have hc : isDigitCh c = true := h c (List.mem_cons_self c rest)
  have hcm : c ≠ '-' := by
    intro hcontra
    rw [hcontra] at hc
    simp [isDigitCh] at hc
  simp only [searchNum, matchNumAt, hcm, if_false, hc, if_true,
    matchUnsigned_digits _ h]

theorem searchNum_neg_digits (l : List Char) (hne : l ≠ [])
    (h : ∀ c ∈ l, isDigitCh c = true) :
    searchNum ('-' :: l) = some (-(digitsVal l : ℚ)) := by
  obtain ⟨c, rest, rfl⟩ := List.exists_cons_of_ne_nil hne
  have hc : isDigitCh c = true := h c (List.mem_cons_self c rest)
  simp only [searchNum, matchNumAt, if_true, hc, matchUnsigned_digits _ h]

/-! ## Lemmas about `roundHalfEven` -/

theorem roundHalfEven_intCast (m : ℤ) : roundHalfEven (m : ℚ) = m := by
  simp [roundHalfEven]

theorem roundHalfEven_nonneg (q : ℚ) (h : 0 ≤ q) : 0 ≤ roundHalfEven q := by
  have hf : (0 : ℤ) ≤ ⌊q⌋ := Int.floor_nonneg.mpr h
  simp only [roundHalfEven]
  split
  · exact hf
  · split
    · omega
    · split
      · exact hf
      · omega

theorem den_one_eq_num (q : ℚ) (h : q.den = 1) : (q.num : ℚ) = q := by
  conv_rhs => rw [← Rat.num_div_den q]
  rw [h]
  simp

theorem roundHalfEven_den_one (q : ℚ) (h : q.den = 1) :
    (roundHalfEven q : ℚ) = q := by
  rw [← den_one_eq_num q h, roundHalfEven_intCast]

/-! ## Lemmas about `calculate_netherlands_tax` -/

theorem calculate_netherlands_tax_nonneg (x : ℚ) :
    0 ≤ calculate_netherlands_tax x := by
  unfold calculate_netherlands_tax
  split
  · exact le_refl 0
  · next h =>
    push_neg at h
    split
    · positivity
    · next h2 =>
      push_neg at h2
      have h19 : (0.19 : ℚ) = 19 / 100 := by norm_num
      have h258 : (0.258 : ℚ) = 258 / 1000 := by norm_num
      rw [h19, h258]
      nlinarith [h2]

/-! ## Lemmas about the association-list dictionary -/

theorem jget_jset_self (o : JsonObj) (k v d : String) :
    jget (jset o k v) k d = v := by
  induction o with
  | nil => simp [jget, jset]
  | cons kv rest ih =>
    by_cases hk : kv.1 = k
    · simp [jget, jset, hk]
    · simp [jget, jset, hk, ih]

theorem jget_jset_ne (o : JsonObj) (k k2 v d : String) (h : k2 ≠ k) :
    jget (jset o k2 v) k d = jget o k d := by
  induction o with
  | nil => simp [jget, jset, h]
  | cons kv rest ih =>
    by_cases hk : kv.1 = k2
    · simp [jget, jset, hk, h]
    · by_cases hk2 : kv.1 = k
      · simp [jget, jset, hk, hk2, Ne.symm h]
      · simp [jget, jset, hk, hk2, ih]

theorem hasKey_jset_ne (o : JsonObj) (k k2 v : String) (h : k2 ≠ k) :
    hasKey (jset o k2 v) k = hasKey o k := by
  induction o with
  | nil => simp [hasKey, jset, h]
  | cons kv rest ih =>
    by_cases hk : kv.1 = k2
    · simp [hasKey, jset, hk, h]
    · by_cases hk2 : kv.1 = k
      · simp [hasKey, jset, hk, hk2, Ne.symm h]
      · simp [hasKey, jset, hk, hk2, ih]

/-! ## Lemmas about comma grouping -/

theorem chunk3_flatten : ∀ l : List Char, (chunk3 l).flatten = l
  | [] => rfl
  | [_] => rfl
  | [_, _] => rfl
  | a :: b :: c :: rest => by
    simp only [chunk3, List.flatten_cons, List.cons_append, List.nil_append]
    rw [chunk3_flatten rest]

theorem joinComma_filter (p : Char → Bool) (hp : p ',' = false) :
    ∀ gs : List (List Char), (∀ g ∈ gs, ∀ c ∈ g, p c = true) →
      (joinComma gs).filter p = gs.flatten
  | [] => by intro _; rfl
  | [g] => by
    intro h
    simp only [joinComma, List.flatten_cons, List.flatten_nil, List.append_nil]
    exact List.filter_eq_self.mpr (h g (List.mem_singleton_self g))
  | g :: g2 :: rest => by
    intro h
    simp only [joinComma, List.flatten_cons, List.filter_append,
      List.filter_cons, hp]
    rw [List.filter_eq_self.mpr (h g (List.mem_cons_self g _)),
      joinComma_filter p hp (g2 :: rest)
        (fun x hx => h x (List.mem_cons_of_mem g hx))]
    simp [List.flatten_cons]

theorem mem_joinComma : ∀ gs : List (List Char), ∀ c ∈ joinComma gs,
    c = ',' ∨ ∃ g ∈ gs, c ∈ g
  | [] => by intro c hc; simp [joinComma] at hc
  | [g] => by
    intro c hc
    simp only [joinComma] at hc
    exact Or.inr ⟨g, List.mem_singleton_self g, hc⟩
  | g :: g2 :: rest => by
    intro c hc
    simp only [joinComma, List.mem_append, List.mem_cons] at hc
    rcases hc with hc | hc | hc
    · exact Or.inr ⟨g, List.mem_cons_self g _, hc⟩
    · exact Or.inl hc
    · rcases mem_joinComma (g2 :: rest) c hc with h | ⟨g3, hg3, hcg⟩
      · exact Or.inl h
      · exact Or.inr ⟨g3, List.mem_cons_of_mem g hg3, hcg⟩

theorem filter_rev (p : Char → Bool) (l : List Char) :
    l.reverse.filter p = (l.filter p).reverse := by
  induction l with
  | nil => rfl
  | cons c rest ih =>
    simp only [List.reverse_cons, List.filter_append, List.filter_cons, ih]
    cases hp : p c <;> simp

theorem filter_commaGroup (p : Char → Bool) (ds : List Char)
    (hp : p ',' = false) (hd : ∀ c ∈ ds, p c = true) :
    (commaGroup ds).filter p = ds := by
  have hmem : ∀ g ∈ chunk3 ds.reverse, ∀ c ∈ g, p c = true := by
    intro g hg c hc
    apply hd
    rw [← List.mem_reverse]
    rw [← chunk3_flatten ds.reverse]
    exact List.mem_flatten.mpr ⟨g, hg, hc⟩
  rw [commaGroup, filter_rev, joinComma_filter p hp _ hmem, chunk3_flatten,
    List.reverse_reverse]

theorem mem_commaGroup (ds : List Char) (c : Char) (hc : c ∈ commaGroup ds) :
    c = ',' ∨ c ∈ ds := by
  simp only [commaGroup, List.mem_reverse] at hc
  rcases mem_joinComma _ c hc with h | ⟨g, hg, hcg⟩
  · exact Or.inl h
  · right
    rw [← List.mem_reverse, ← chunk3_flatten ds.reverse]
    exact List.mem_flatten.mpr ⟨g, hg, hcg⟩

/-! ## Lemmas about strings built from character lists -/

theorem toList_mk (cs : List Char) : (String.mk cs).toList = cs := rfl

theorem mk_eq_empty_iff (cs : List Char) : String.mk cs = "" ↔ cs = [] := by
  constructor
  · intro h
    have h2 : (String.mk cs).data = ("" : String).data := by rw [h]
    exact h2
  · intro h
    rw [h]

theorem mk_eq_zero_iff (cs : List Char) : String.mk cs = "0" ↔ cs = ['0'] := by
  constructor
  · intro h
    have h2 : (String.mk cs).data = ("0" : String).data := by rw [h]
    exact h2
  · intro h
    rw [h]

/-! ## Lemmas about `clean_numeric_value` on machine-written numbers -/

theorem clean_mk_core (cs : List Char) (h1 : cs ≠ []) (h2 : cs ≠ ['0']) :
    clean_numeric_value (String.mk cs) =
      (searchNum (parenFix (cs.filter (fun c => !isStripCh c)))).getD 0 := by
  unfold clean_numeric_value
  rw [if_neg]
  · rfl
  · push_neg
    exact ⟨fun hc => h1 ((mk_eq_empty_iff cs).mp hc),
      fun hc => h2 ((mk_eq_zero_iff cs).mp hc)⟩

theorem filter_strip_digits (ds : List Char)
    (hd : ∀ c ∈ ds, ∃ d : ℕ, d < 10 ∧ c = Char.ofNat (48 + d)) :
    ds.filter (fun c => !isStripCh c) = ds := by
  apply List.filter_eq_self.mpr
  intro c hc
  obtain ⟨d, hlt, rfl⟩ := hd c hc
  simp [(digitChar_facts d hlt).1]

theorem parenFix_digit_head (c : Char) (rest : List Char) (h : c ≠ '(') :
    parenFix (c :: rest) = c :: rest := by
  unfold parenFix
  rw [if_neg]
  intro hcontra
  apply h
  have := hcontra.1
  simpa using this

theorem searchNum_of_digits (ds : List Char) (hne : ds ≠ [])
    (hd : ∀ c ∈ ds, ∃ d : ℕ, d < 10 ∧ c = Char.ofNat (48 + d)) :
    searchNum (parenFix ds) = some (digitsVal ds : ℚ) := by
  obtain ⟨c, rest, rfl⟩ := List.exists_cons_of_ne_nil hne
  obtain ⟨d, hlt, hc⟩ := hd c (List.mem_cons_self c rest)
  have hdig : ∀ x ∈ c :: rest, isDigitCh x = true := by
    intro x hx
    obtain ⟨d2, hlt2, rfl⟩ := hd x hx
    exact (digitChar_facts d2 hlt2).2.1
  rw [parenFix_digit_head c rest (by rw [hc]; exact (digitChar_facts d hlt).2.2.2.1)]
  exact searchNum_digits _ (by simp) hdig

theorem clean_digits (ds : List Char) (hne : ds ≠ [])
    (hd : ∀ c ∈ ds, ∃ d : ℕ, d < 10 ∧ c = Char.ofNat (48 + d)) :
    clean_numeric_value (String.mk ds) = (digitsVal ds : ℚ) := by
  by_cases h0 : ds = ['0']
  · subst h0
    have : clean_numeric_value (String.mk ['0']) = 0 := rfl
    rw [this]
    simp [digitsVal]
  · rw [clean_mk_core ds hne h0, filter_strip_digits ds hd,
      searchNum_of_digits ds hne hd]
    rfl

theorem clean_neg_digits (ds : List Char) (hne : ds ≠ [])
    (hd : ∀ c ∈ ds, ∃ d : ℕ, d < 10 ∧ c = Char.ofNat (48 + d)) :
    clean_numeric_value (String.mk ('-' :: ds)) = -(digitsVal ds : ℚ) := by
  have h1 : ('-' :: ds) ≠ ([] : List Char) := by simp
  have h2 : ('-' :: ds) ≠ (['0'] : List Char) := by
    intro hcontra
    simp at hcontra
  rw [clean_mk_core _ h1 h2]
  have hminus : (!isStripCh '-') = true := by decide
  have hfil : ('-' :: ds).filter (fun c => !isStripCh c) = '-' :: ds := by
    simp only [List.filter_cons, hminus, if_true]
    rw [filter_strip_digits ds hd]
  rw [hfil, parenFix_digit_head '-' ds (by decide)]
  have hdig : ∀ x ∈ ds, isDigitCh x = true := by
    intro x hx
    obtain ⟨d2, hlt2, rfl⟩ := hd x hx
    exact (digitChar_facts d2 hlt2).2.1
  rw [searchNum_neg_digits ds hne hdig]
  rfl

theorem clean_intRepr (m : ℤ) : clean_numeric_value (intRepr m) = (m : ℚ) := by
  unfold intRepr intReprChars
  by_cases hm : m < 0
  · rw [if_pos hm,
      clean_neg_digits _ (natDecRep_ne_nil _) (natDecRep_mem _),
      natDecRep_val, Int.cast_natAbs, abs_of_neg hm]
    push_cast
    ring
  · rw [if_neg hm,
      clean_digits _ (natDecRep_ne_nil _) (natDecRep_mem _),
      natDecRep_val, Int.cast_natAbs, abs_of_nonneg (not_lt.mp hm)]

/-! ## Lemmas about `pyFloat?` -/

theorem dropWhile_no (p : Char → Bool) (l : List Char)
    (h : ∀ c ∈ l, p c = false) : l.dropWhile p = l := by
  cases l with
  | nil => rfl
  | cons c rest =>
    rw [List.dropWhile_cons, h c (List.mem_cons_self c rest)]
    simp

theorem trimWs_no (l : List Char) (h : ∀ c ∈ l, isWsCh c = false) :
    trimWs l = l := by
  unfold trimWs
  rw [dropWhile_no _ _ h,
    dropWhile_no _ _ (fun c hc => h c (List.mem_reverse.mp hc)),
    List.reverse_reverse]

theorem parseSign_neg (l : List Char) : parseSign ('-' :: l) = (-1, l) := rfl

theorem parseSign_nosign (c : Char) (l : List Char) (h1 : c ≠ '+')
    (h2 : c ≠ '-') : parseSign (c :: l) = (1, c :: l) := by
  unfold parseSign
  split
  · rename_i heq
    injection heq with hh _
    exact absurd hh h1
  · rename_i heq
    injection heq with hh _
    exact absurd hh h2
  · rfl

theorem parseMantissa_digits (l : List Char) (hne : l ≠ [])
    (hd : ∀ c ∈ l, isDigitCh c = true) :
    parseMantissa l = some ((digitsVal l : ℚ), []) := by
  simp only [parseMantissa, takeDigits_all l hd]
  simp [hne]

theorem parseExpPart_nil : parseExpPart [] = some (0, []) := rfl

theorem pyFloat_intRepr (n : ℤ) : pyFloat? (intRepr n) = some (n : ℚ) := by
  have hdigit : ∀ c ∈ natDecRep n.natAbs, isDigitCh c = true :=
    natDecRep_digit _
  have hmemd := natDecRep_mem n.natAbs
  have hws : ∀ c ∈ intReprChars n, isWsCh c = false := by
    intro c hc
    unfold intReprChars at hc
    split at hc
    · rcases List.mem_cons.mp hc with rfl | hc2
      · decide
      · obtain ⟨d, hd, rfl⟩ := hmemd c hc2
        exact (digitChar_facts d hd).2.2.1
    · obtain ⟨d, hd, rfl⟩ := hmemd c hc
      exact (digitChar_facts d hd).2.2.1
  simp only [pyFloat?, intRepr, toList_mk]
  rw [trimWs_no _ hws]
  unfold intReprChars
  by_cases hn : n < 0
  · rw [if_pos hn]
    rw [parseSign_neg]
    rw [parseMantissa_digits _ (natDecRep_ne_nil _) hdigit]
    rw [natDecRep_val]
    simp only [parseExpPart_nil, applyExp]
    norm_num
    rw [Int.cast_natAbs, abs_of_neg hn]
    push_cast
    ring
  · rw [if_neg hn]
    obtain ⟨c, rest, hrep⟩ :=
      List.exists_cons_of_ne_nil (natDecRep_ne_nil n.natAbs)
    obtain ⟨d, hd, hc⟩ := hmemd c (hrep ▸ List.mem_cons_self c rest)
    rw [hrep, parseSign_nosign c rest
        (by rw [hc]; exact (digitChar_facts d hd).2.2.2.2.2.2.1)
        (by rw [hc]; exact (digitChar_facts d hd).2.2.2.2.2.1),
      ← hrep]
    rw [parseMantissa_digits _ (natDecRep_ne_nil _) hdigit]
    rw [natDecRep_val]
    simp only [parseExpPart_nil, applyExp]
    norm_num
    rw [Int.cast_natAbs, abs_of_nonneg (not_lt.mp hn)]

/-! ## Lemmas about `format_currency` output read back -/

theorem filter_strip_euro_group (ds : List Char)
    (hd : ∀ c ∈ ds, ∃ d : ℕ, d < 10 ∧ c = Char.ofNat (48 + d)) :
    ('€' :: commaGroup ds).filter (fun c => !isStripCh c) = ds := by
  have heuro : (!isStripCh '€') = false := by decide
  simp only [List.filter_cons, heuro]
  simp only [Bool.false_eq_true, if_false]
  exact filter_commaGroup _ ds (by decide)
    (fun c hc => by
      obtain ⟨d, hlt, rfl⟩ := hd c hc
      simp [(digitChar_facts d hlt).1])

theorem clean_format_chars_pos (ds : List Char) (hne : ds ≠ [])
    (hd : ∀ c ∈ ds, ∃ d : ℕ, d < 10 ∧ c = Char.ofNat (48 + d)) :
    clean_numeric_value (String.mk ('€' :: commaGroup ds)) =
      (digitsVal ds : ℚ) := by
  have h1 : ('€' :: commaGroup ds) ≠ ([] : List Char) := by simp
  have h2 : ('€' :: commaGroup ds) ≠ (['0'] : List Char) := by
    intro h
    injection h with hh _
    exact absurd hh (by decide)
  rw [clean_mk_core _ h1 h2, filter_strip_euro_group ds hd,
    searchNum_of_digits ds hne hd]
  rfl

theorem clean_format_chars_neg (ds : List Char) (hne : ds ≠ [])
    (hd : ∀ c ∈ ds, ∃ d : ℕ, d < 10 ∧ c = Char.ofNat (48 + d)) :
    clean_numeric_value (String.mk ('-' :: '€' :: commaGroup ds)) =
      -(digitsVal ds : ℚ) := by
  have h1 : ('-' :: '€' :: commaGroup ds) ≠ ([] : List Char) := by simp
  have h2 : ('-' :: '€' :: commaGroup ds) ≠ (['0'] : List Char) := by
    intro h
    injection h with hh _
    exact absurd hh (by decide)
  rw [clean_mk_core _ h1 h2]
  have hminus : (!isStripCh '-') = true := by decide
  have hfil : ('-' :: '€' :: commaGroup ds).filter (fun c => !isStripCh c) =
      '-' :: ds := by
    have heuro : (!isStripCh '€') = false := by decide
    simp only [List.filter_cons, hminus, if_true, heuro, Bool.false_eq_true,
      if_false]
    rw [filter_commaGroup _ ds (by decide) (fun c hc => by
      obtain ⟨d, hlt, rfl⟩ := hd c hc
      simp [(digitChar_facts d hlt).1])]
  rw [hfil, parenFix_digit_head '-' ds (by decide)]
  have hdig : ∀ x ∈ ds, isDigitCh x = true := by
    intro x hx
    obtain ⟨d2, hlt2, rfl⟩ := hd x hx
    exact (digitChar_facts d2 hlt2).2.1
  rw [searchNum_neg_digits ds hne hdig]
  rfl

/-! ## Case lemmas for `format_currency` -/

theorem format_currency_none (s : String) (h : pyFloat? s = none) :
    format_currency s = "€0" := by
  unfold format_currency
  rw [h]

theorem format_currency_neg (s : String) (q : ℚ) (h : pyFloat? s = some q)
    (hq : q < 0) :
    format_currency s =
      String.mk ('-' :: '€' :: fmtGroupChars (roundHalfEven (-q)).toNat) := by
  unfold format_currency
  rw [h]
  simp [hq]

theorem format_currency_nonneg (s : String) (q : ℚ) (h : pyFloat? s = some q)
    (hq : 0 ≤ q) :
    format_currency s =
      String.mk ('€' :: fmtGroupChars (roundHalfEven q).toNat) := by
  unfold format_currency
  rw [h]
  simp [not_lt.mpr hq]

theorem fmtGroup_filter_comma (n : ℕ) :
    (fmtGroupChars n).filter (fun c => c != ',') = natDecRep n := by
  apply filter_commaGroup
  · decide
  · intro c hc
    obtain ⟨d, hlt, rfl⟩ := natDecRep_mem n c hc
    simp [bne_iff_ne, (digitChar_facts d hlt).2.2.2.2.2.2.2.1]

theorem dot_not_mem_fmtGroup (n : ℕ) : '.' ∉ fmtGroupChars n := by
  intro h
  rcases mem_commaGroup _ _ h with h | h
  · exact absurd h (by decide)
  · obtain ⟨d, hlt, hc⟩ := natDecRep_mem n '.' h
    exact absurd hc.symm (digitChar_facts d hlt).2.2.2.2.2.2.2.2.1

/-! ## Field lemmas for the extractor's record -/

theorem extract_some_def (o : JsonObj) :
    extract_financial_data_with_ai (some o) =
      jset (jset (jset (jset (jset (jset o
        "total_revenue" (intRepr (roundHalfEven (baseVal o "total_revenue"))))
        "total_expenses" (intRepr (roundHalfEven (baseVal o "total_expenses"))))
        "depreciation" (intRepr (roundHalfEven (baseVal o "depreciation"))))
        "deductions" (intRepr (roundHalfEven (baseVal o "deductions"))))
        "net_taxable_income" (intRepr (roundHalfEven (netOf o))))
        "final_tax_owed"
        (intRepr (roundHalfEven (calculate_netherlands_tax (netOf o)))) := rfl

theorem jget_extract_final (o : JsonObj) (d : String) :
    jget (extract_financial_data_with_ai (some o)) "final_tax_owed" d =
      intRepr (roundHalfEven (calculate_netherlands_tax (netOf o))) := by
  rw [extract_some_def, jget_jset_self]

theorem jget_extract_net (o : JsonObj) (d : String) :
    jget (extract_financial_data_with_ai (some o)) "net_taxable_income" d =
      intRepr (roundHalfEven (netOf o)) := by
  rw [extract_some_def, jget_jset_ne _ _ _ _ _ (by decide), jget_jset_self]

theorem jget_extract_revenue (o : JsonObj) (d : String) :
    jget (extract_financial_data_with_ai (some o)) "total_revenue" d =
      intRepr (roundHalfEven (baseVal o "total_revenue")) := by
  rw [extract_some_def, jget_jset_ne _ _ _ _ _ (by decide),
    jget_jset_ne _ _ _ _ _ (by decide), jget_jset_ne _ _ _ _ _ (by decide),
    jget_jset_ne _ _ _ _ _ (by decide), jget_jset_ne _ _ _ _ _ (by decide),
    jget_jset_self]

theorem jget_extract_expenses (o : JsonObj) (d : String) :
    jget (extract_financial_data_with_ai (some o)) "total_expenses" d =
      intRepr (roundHalfEven (baseVal o "total_expenses")) := by
  rw [extract_some_def, jget_jset_ne _ _ _ _ _ (by decide),
    jget_jset_ne _ _ _ _ _ (by decide), jget_jset_ne _ _ _ _ _ (by decide),
    jget_jset_ne _ _ _ _ _ (by decide), jget_jset_self]

theorem jget_extract_depreciation (o : JsonObj) (d : String) :
    jget (extract_financial_data_with_ai (some o)) "depreciation" d =
      intRepr (roundHalfEven (baseVal o "depreciation")) := by
  rw [extract_some_def, jget_jset_ne _ _ _ _ _ (by decide),
    jget_jset_ne _ _ _ _ _ (by decide), jget_jset_ne _ _ _ _ _ (by decide),
    jget_jset_self]

theorem jget_extract_deductions (o : JsonObj) (d : String) :
    jget (extract_financial_data_with_ai (some o)) "deductions" d =
      intRepr (roundHalfEven (baseVal o "deductions")) := by
  rw [extract_some_def, jget_jset_ne _ _ _ _ _ (by decide),
    jget_jset_ne _ _ _ _ _ (by decide), jget_jset_self]

theorem jget_extract_company (o : JsonObj) (d : String) :
    jget (extract_financial_data_with_ai (some o)) "company_name" d =
      jget o "company_name" d := by
  rw [extract_some_def, jget_jset_ne _ _ _ _ _ (by decide),
    jget_jset_ne _ _ _ _ _ (by decide), jget_jset_ne _ _ _ _ _ (by decide),
    jget_jset_ne _ _ _ _ _ (by decide), jget_jset_ne _ _ _ _ _ (by decide),
    jget_jset_ne _ _ _ _ _ (by decide)]

theorem jget_extract_country (o : JsonObj) (d : String) :
    jget (extract_financial_data_with_ai (some o)) "country" d =
      jget o "country" d := by
  rw [extract_some_def, jget_jset_ne _ _ _ _ _ (by decide),
    jget_jset_ne _ _ _ _ _ (by decide), jget_jset_ne _ _ _ _ _ (by decide),
    jget_jset_ne _ _ _ _ _ (by decide), jget_jset_ne _ _ _ _ _ (by decide),
    jget_jset_ne _ _ _ _ _ (by decide)]

theorem hasKey_extract_company (o : JsonObj) :
    hasKey (extract_financial_data_with_ai (some o)) "company_name" =
      hasKey o "company_name" := by
  rw [extract_some_def, hasKey_jset_ne _ _ _ _ (by decide),
    hasKey_jset_ne _ _ _ _ (by decide), hasKey_jset_ne _ _ _ _ (by decide),
    hasKey_jset_ne _ _ _ _ (by decide), hasKey_jset_ne _ _ _ _ (by decide),
    hasKey_jset_ne _ _ _ _ (by decide)]

theorem hasKey_extract_country (o : JsonObj) :
    hasKey (extract_financial_data_with_ai (some o)) "country" =
      hasKey o "country" := by
  rw [extract_some_def, hasKey_jset_ne _ _ _ _ (by decide),
    hasKey_jset_ne _ _ _ _ (by decide), hasKey_jset_ne _ _ _ _ (by decide),
    hasKey_jset_ne _ _ _ _ (by decide), hasKey_jset_ne _ _ _ _ (by decide),
    hasKey_jset_ne _ _ _ _ (by decide)]

theorem recordVal_extract_final (o : JsonObj) :
    recordVal (extract_financial_data_with_ai (some o)) "final_tax_owed" =
      ((roundHalfEven (calculate_netherlands_tax (netOf o)) : ℤ) : ℚ) := by
  unfold recordVal
  rw [jget_extract_final, clean_intRepr]

theorem recordVal_extract_net (o : JsonObj) :
    recordVal (extract_financial_data_with_ai (some o)) "net_taxable_income" =
      ((roundHalfEven (netOf o) : ℤ) : ℚ) := by
  unfold recordVal
  rw [jget_extract_net, clean_intRepr]

theorem recordVal_extract_revenue (o : JsonObj) :
    recordVal (extract_financial_data_with_ai (some o)) "total_revenue" =
      ((roundHalfEven (baseVal o "total_revenue") : ℤ) : ℚ) := by
  unfold recordVal
  rw [jget_extract_revenue, clean_intRepr]

theorem recordVal_extract_expenses (o : JsonObj) :
    recordVal (extract_financial_data_with_ai (some o)) "total_expenses" =
      ((roundHalfEven (baseVal o "total_expenses") : ℤ) : ℚ) := by
  unfold recordVal
  rw [jget_extract_expenses, clean_intRepr]

theorem recordVal_extract_depreciation (o : JsonObj) :
    recordVal (extract_financial_data_with_ai (some o)) "depreciation" =
      ((roundHalfEven (baseVal o "depreciation") : ℤ) : ℚ) := by
  unfold recordVal
  rw [jget_extract_depreciation, clean_intRepr]

theorem recordVal_extract_deductions (o : JsonObj) :
    recordVal (extract_financial_data_with_ai (some o)) "deductions" =
      ((roundHalfEven (baseVal o "deductions") : ℤ) : ℚ) := by
  unfold recordVal
  rw [jget_extract_deductions, clean_intRepr]

/-! ## The claims -/

/-- Claim C1 (corrected): as stated, the equation
`net_taxable_income == total_revenue - total_expenses - depreciation -
deductions` between the numeric fields of the returned record fails when
the model supplies fractional base values, because lines 119–124 round
each of the six fields to the nearest integer independently.  This
counterexample: for the parsed response
`{"total_revenue": "1.4", "total_expenses": "0.7"}` the record stores
revenue 1, expenses 1 and net taxable income 1, but 1 - 1 - 0 - 0 = 0. -/
theorem claim_C1_counterexample :
    recordVal (extract_financial_data_with_ai
        (some [("total_revenue", "1.4"), ("total_expenses", "0.7")]))
      "net_taxable_income" ≠
    recordVal (extract_financial_data_with_ai
        (some [("total_revenue", "1.4"), ("total_expenses", "0.7")]))
      "total_revenue" -
    recordVal (extract_financial_data_with_ai
        (some [("total_revenue", "1.4"), ("total_expenses", "0.7")]))
      "total_expenses" -
    recordVal (extract_financial_data_with_ai
        (some [("total_revenue", "1.4"), ("total_expenses", "0.7")]))
      "depreciation" -
    recordVal (extract_financial_data_with_ai
        (some [("total_revenue", "1.4"), ("total_expenses", "0.7")]))
      "deductions" := by
  with_unfolding_all decide

/-- Claim C1 (amended): for every record leaving the extractor, the
`net_taxable_income` field is the half-even rounding of the exact
difference of the four normalized (unrounded) base values; the claimed
equation between the record's own fields holds for the fallback record and
whenever the four normalized base values are whole numbers — in
particular whenever the model returns whole-number strings. -/
theorem claim_C1 :
    (recordVal (extract_financial_data_with_ai none) "net_taxable_income" =
      recordVal (extract_financial_data_with_ai none) "total_revenue" -
      recordVal (extract_financial_data_with_ai none) "total_expenses" -
      recordVal (extract_financial_data_with_ai none) "depreciation" -
      recordVal (extract_financial_data_with_ai none) "deductions") ∧
    (∀ o : JsonObj,
      recordVal (extract_financial_data_with_ai (some o))
        "net_taxable_income" = ((roundHalfEven (netOf o) : ℤ) : ℚ)) ∧
    (∀ o : JsonObj,
      (baseVal o "total_revenue").den = 1 →
      (baseVal o "total_expenses").den = 1 →
      (baseVal o "depreciation").den = 1 →
      (baseVal o "deductions").den = 1 →
      recordVal (extract_financial_data_with_ai (some o))
        "net_taxable_income" =
      recordVal (extract_financial_data_with_ai (some o)) "total_revenue" -
      recordVal (extract_financial_data_with_ai (some o)) "total_expenses" -
      recordVal (extract_financial_data_with_ai (some o)) "depreciation" -
      recordVal (extract_financial_data_with_ai (some o)) "deductions") := by
  refine ⟨by with_unfolding_all decide, fun o => recordVal_extract_net o, ?_⟩
  intro o h1 h2 h3 h4
  obtain ⟨a, ha⟩ : ∃ a : ℤ, (a : ℚ) = baseVal o "total_revenue" :=
    ⟨_, den_one_eq_num _ h1⟩
  obtain ⟨b, hb⟩ : ∃ b : ℤ, (b : ℚ) = baseVal o "total_expenses" :=
    ⟨_, den_one_eq_num _ h2⟩
  obtain ⟨c, hc⟩ : ∃ c : ℤ, (c : ℚ) = baseVal o "depreciation" :=
    ⟨_, den_one_eq_num _ h3⟩
  obtain ⟨e, he⟩ : ∃ e : ℤ, (e : ℚ) = baseVal o "deductions" :=
    ⟨_, den_one_eq_num _ h4⟩
  rw [recordVal_extract_net, recordVal_extract_revenue,
    recordVal_extract_expenses, recordVal_extract_depreciation,
    recordVal_extract_deductions]
  have hnet : netOf o = ((a - b - c - e : ℤ) : ℚ) := by
    unfold netOf
    rw [← ha, ← hb, ← hc, ← he]
    push_cast
    ring
  rw [hnet, roundHalfEven_intCast, ← ha, ← hb, ← hc, ← he,
    roundHalfEven_intCast, roundHalfEven_intCast, roundHalfEven_intCast,
    roundHalfEven_intCast]
  push_cast
  ring

/-- Witness for claim C1 at the whole-number response
`{"total_revenue": "5"}`. -/
theorem claim_C1_witness :
    recordVal (extract_financial_data_with_ai (some [("total_revenue", "5")]))
      "net_taxable_income" =
    recordVal (extract_financial_data_with_ai (some [("total_revenue", "5")]))
      "total_revenue" -
    recordVal (extract_financial_data_with_ai (some [("total_revenue", "5")]))
      "total_expenses" -
    recordVal (extract_financial_data_with_ai (some [("total_revenue", "5")]))
      "depreciation" -
    recordVal (extract_financial_data_with_ai (some [("total_revenue", "5")]))
      "deductions" :=
  claim_C1.2.2 [("total_revenue", "5")] (by with_unfolding_all decide)
    (by with_unfolding_all decide) (by with_unfolding_all decide)
    (by with_unfolding_all decide)

/-- Claim C2 (corrected): as stated, `final_tax_owed` is not in general the
Tax Calculator applied to the record's `net_taxable_income` field, because
line 124 rounds the tax to whole units.  Counterexample: for the parsed
response `{"total_revenue": "101"}` the record stores net taxable income
101 and final tax 19, but the Tax Calculator gives 101 * 0.19 = 19.19. -/
theorem claim_C2_counterexample :
    recordVal (extract_financial_data_with_ai
        (some [("total_revenue", "101")])) "final_tax_owed" ≠
    calculate_netherlands_tax
      (recordVal (extract_financial_data_with_ai
        (some [("total_revenue", "101")])) "net_taxable_income") := by
  with_unfolding_all decide

/-- Claim C2 (amended): for every record leaving the extractor, the
`final_tax_owed` field is the half-even rounding of the Tax Calculator
applied to the exact (unrounded) recomputed net taxable income; the
claimed equation `final_tax_owed == TaxCalculator(net_taxable_income)`
between the record's fields holds for the fallback record and whenever the
recomputed net taxable income and its tax are both whole numbers. -/
theorem claim_C2 :
    (recordVal (extract_financial_data_with_ai none) "final_tax_owed" =
      calculate_netherlands_tax
        (recordVal (extract_financial_data_with_ai none)
          "net_taxable_income")) ∧
    (∀ o : JsonObj,
      recordVal (extract_financial_data_with_ai (some o)) "final_tax_owed" =
        ((roundHalfEven (calculate_netherlands_tax (netOf o)) : ℤ) : ℚ)) ∧
    (∀ o : JsonObj, (netOf o).den = 1 →
      (calculate_netherlands_tax (netOf o)).den = 1 →
      recordVal (extract_financial_data_with_ai (some o)) "final_tax_owed" =
        calculate_netherlands_tax
          (recordVal (extract_financial_data_with_ai (some o))
            "net_taxable_income")) := by
  refine ⟨by with_unfolding_all decide,
    fun o => recordVal_extract_final o, ?_⟩
  intro o hnet htax
  rw [recordVal_extract_final, recordVal_extract_net,
    roundHalfEven_den_one _ hnet, roundHalfEven_den_one _ htax]

/-- Witness for claim C2 at the whole-number response
`{"total_revenue": "100"}` (net 100, tax 19). -/
theorem claim_C2_witness :
    recordVal (extract_financial_data_with_ai
        (some [("total_revenue", "100")])) "final_tax_owed" =
    calculate_netherlands_tax
      (recordVal (extract_financial_data_with_ai
        (some [("total_revenue", "100")])) "net_taxable_income") :=
  claim_C2.2.2 [("total_revenue", "100")] (by with_unfolding_all decide)
    (by with_unfolding_all decide)

/-- Claim C3 (confirmed): for every record the extractor produces,
including the fallback record, the `final_tax_owed` field is
non-negative. -/
theorem claim_C3 :
    ∀ parsed? : Option JsonObj,
      0 ≤ recordVal (extract_financial_data_with_ai parsed?)
        "final_tax_owed" := by
  intro p
  cases p with
  | none => with_unfolding_all decide
  | some o =>
    rw [recordVal_extract_final]
    exact_mod_cast roundHalfEven_nonneg _ (calculate_netherlands_tax_nonneg _)

/-- Claim C4 (confirmed): when the external call fails or its response
cannot be parsed as a JSON object (the `none` input, covering every path
into the source's `except` branch), the extractor returns the fallback
record whose string fields are empty and whose six numeric fields are all
the string `"0"`.  The extractor is a total function, so no failure is
propagated to the caller. -/
theorem claim_C4 :
    extract_financial_data_with_ai none =
      [("company_name", ""), ("country", ""), ("total_revenue", "0"),
       ("total_expenses", "0"), ("depreciation", "0"), ("deductions", "0"),
       ("net_taxable_income", "0"), ("final_tax_owed", "0")] := rfl

/-- Claim C5 (confirmed): the Tax Calculator implements exactly the fixed
two-bracket schedule — zero for non-positive income, 19% up to 200000,
and 38000 plus 25.8% of the excess above 200000; in particular
tax(200000) = 38000 and tax(250000) = 50900. -/
theorem claim_C5 :
    (∀ x : ℚ, x ≤ 0 → calculate_netherlands_tax x = 0) ∧
    (∀ x : ℚ, 0 < x → x ≤ 200000 →
      calculate_netherlands_tax x = x * 0.19) ∧
    (∀ x : ℚ, 200000 < x →
      calculate_netherlands_tax x =
        200000 * 0.19 + (x - 200000) * 0.258) ∧
    calculate_netherlands_tax 200000 = 38000 ∧
    calculate_netherlands_tax 250000 = 50900 := by
  refine ⟨?_, ?_, ?_, ?_, ?_⟩
  · intro x hx
    simp [calculate_netherlands_tax, hx]
  · intro x hx1 hx2
    simp [calculate_netherlands_tax, not_le.mpr hx1, hx2]
  · intro x hx
    have h0 : ¬x ≤ 0 := by linarith
    have h2 : ¬x ≤ 200000 := not_le.mpr hx
    simp [calculate_netherlands_tax, h0, h2]
  · norm_num [calculate_netherlands_tax]
  · norm_num [calculate_netherlands_tax]

/-- Witness for claim C5 in each bracket. -/
theorem claim_C5_witness :
    calculate_netherlands_tax (-30000) = 0 ∧
    calculate_netherlands_tax 150000 = 150000 * 0.19 ∧
    calculate_netherlands_tax 350000 =
      200000 * 0.19 + (350000 - 200000) * 0.258 :=
  ⟨claim_C5.1 (-30000) (by norm_num),
   claim_C5.2.1 150000 (by norm_num) (by norm_num),
   claim_C5.2.2.1 350000 (by norm_num)⟩

/-- Claim C6 (confirmed): the Numeric Normalizer is a total function on
strings (it never raises, modelled by totality), returns `0` whenever the
cleaned-up input contains no `-?\d+\.?\d*` match, and satisfies the four
quoted examples. -/
theorem claim_C6 :
    (∀ v : String,
      searchNum (parenFix ((v.toList).filter (fun c => !isStripCh c))) =
        none →
      clean_numeric_value v = 0) ∧
    clean_numeric_value "€1,234" = 1234 ∧
    clean_numeric_value "(500)" = -500 ∧
    clean_numeric_value "" = 0 ∧
    clean_numeric_value "abc" = 0 := by
  refine ⟨?_, by with_unfolding_all decide, by with_unfolding_all decide,
    by with_unfolding_all decide, by with_unfolding_all decide⟩
  intro v h
  rw [show v.toList = v.data from rfl] at h
  unfold clean_numeric_value
  split
  · rfl
  · simp [h]

/-- Witness for claim C6 at the matchless input `"abc"`. -/
theorem claim_C6_witness : clean_numeric_value "abc" = 0 :=
  claim_C6.1 "abc" (by with_unfolding_all decide)

/-- Claim C7 (corrected): the claim says percent signs are stripped before
the numeric substring is taken, so that a percent sign between digits is
removed; but line 25 strips only `€`, `$`, commas and whitespace — not
`%`.  On `"12%34"` the source returns 12.0 while the spec's described
normalizer (`spec_normalize`, which also strips `%`) returns 1234.0. -/
theorem claim_C7_counterexample :
    clean_numeric_value "12%34" = 12 ∧
    spec_normalize "12%34" = 1234 ∧
    clean_numeric_value "12%34" ≠ spec_normalize "12%34" :=
  ⟨by with_unfolding_all decide, by with_unfolding_all decide,
   by with_unfolding_all decide⟩

/-- Claim C7 (amended): the Numeric Normalizer strips currency symbols
(`€`, `$`), commas and whitespace — but not percent signs — before taking
the first signed-decimal substring.  On every input containing no `%` the
spec's description agrees with the source; a `%` between digits truncates
the match (`"12%34"` normalizes to 12), and a trailing `%` is harmless
(`"50%"` normalizes to 50). -/
theorem claim_C7 :
    (∀ s : String, (∀ c ∈ s.toList, c ≠ '%') →
      clean_numeric_value s = spec_normalize s) ∧
    clean_numeric_value "12%34" = 12 ∧
    clean_numeric_value "50%" = 50 := by
  refine ⟨?_, by with_unfolding_all decide, by with_unfolding_all decide⟩
  intro s h
  have hfil : s.toList.filter (fun c => !specStripCh c) =
      s.toList.filter (fun c => !isStripCh c) := by
    apply List.filter_congr
    intro c hc
    have hcp : (c == '%') = false := by
      cases hcc : c == '%' with
      | false => rfl
      | true => exact absurd (eq_of_beq hcc) (h c hc)
    simp [specStripCh, hcp]
  unfold clean_numeric_value spec_normalize
  rw [hfil]

/-- Witness for claim C7 at the percent-free input `"€1,234"`. -/
theorem claim_C7_witness :
    clean_numeric_value "€1,234" = spec_normalize "€1,234" :=
  claim_C7.1 "€1,234" (by decide)

/-- Claim C8 (corrected): the claim says an omitted `company_name`/`country`
key becomes the empty string in the returned record; in fact lines 119–124
update only the six numeric keys, so an omitted key is simply absent from
the returned record, and `create_results_table` (line 156) then displays
the default `"Not Found"`, not the empty string.  Counterexample: the
parsed response `{"total_revenue": "5"}`. -/
theorem claim_C8_counterexample :
    hasKey (extract_financial_data_with_ai (some [("total_revenue", "5")]))
      "company_name" = false ∧
    (create_results_table (extract_financial_data_with_ai
      (some [("total_revenue", "5")]))).head? =
      some ("Company Name", "Not Found") ∧
    ("Not Found" : String) ≠ "" := by
  refine ⟨by with_unfolding_all decide, by with_unfolding_all decide,
    by decide⟩

/-- Claim C8 (amended): on a successful parse, `company_name` and
`country` are passed through from the model's output unmodified (every
lookup of them in the returned record agrees with the model's object);
when the model's object omits them, they are absent from the returned
record as well (and the results table shows `"Not Found"` for them,
not the empty string). -/
theorem claim_C8 :
    (∀ o : JsonObj, ∀ d : String,
      jget (extract_financial_data_with_ai (some o)) "company_name" d =
        jget o "company_name" d) ∧
    (∀ o : JsonObj, ∀ d : String,
      jget (extract_financial_data_with_ai (some o)) "country" d =
        jget o "country" d) ∧
    (∀ o : JsonObj, hasKey o "company_name" = false →
      hasKey (extract_financial_data_with_ai (some o)) "company_name" =
        false) ∧
    (∀ o : JsonObj, hasKey o "country" = false →
      hasKey (extract_financial_data_with_ai (some o)) "country" =
        false) := by
  refine ⟨jget_extract_company, jget_extract_country, ?_, ?_⟩
  · intro o h
    rw [hasKey_extract_company, h]
  · intro o h
    rw [hasKey_extract_country, h]

/-- Witness for claim C8: a present `company_name` passes through; an
absent one stays absent. -/
theorem claim_C8_witness :
    jget (extract_financial_data_with_ai
        (some [("company_name", "ACME BV")])) "company_name" "Not Found" =
      "ACME BV" ∧
    hasKey (extract_financial_data_with_ai (some [])) "company_name" =
      false := by
  constructor
  · rw [claim_C8.1 [("company_name", "ACME BV")] "Not Found"]
    rfl
  · exact claim_C8.2.2.1 [] rfl

/-- Claim C9 (confirmed): `format_currency` is a total function (never
raises); on every input Python's `float` rejects it returns the
zero-amount string `"€0"`; on every numeric input it emits the currency
symbol followed by the rounded amount's decimal digits grouped in
thousands by commas with no decimal point (zero decimal places), the
minus sign placed before the symbol for negative amounts; in particular
`format_currency "-1234" = "-€1,234"`. -/
theorem claim_C9 :
    (∀ s : String, pyFloat? s = none → format_currency s = "€0") ∧
    (∀ s : String, ∀ q : ℚ, pyFloat? s = some q → q < 0 →
      (format_currency s).toList.filter (fun c => c != ',') =
        '-' :: '€' :: natDecRep (roundHalfEven (-q)).toNat ∧
      '.' ∉ (format_currency s).toList) ∧
    (∀ s : String, ∀ q : ℚ, pyFloat? s = some q → 0 ≤ q →
      (format_currency s).toList.filter (fun c => c != ',') =
        '€' :: natDecRep (roundHalfEven q).toNat ∧
      '.' ∉ (format_currency s).toList) ∧
    format_currency "-1234" = "-€1,234" ∧
    format_currency "1234567" = "€1,234,567" ∧
    format_currency "not_a_number" = "€0" := by
  have hm : ('-' != ',') = true := by decide
  have he : ('€' != ',') = true := by decide
  refine ⟨fun s h => format_currency_none s h, ?_, ?_,
    by with_unfolding_all decide, by with_unfolding_all decide,
    by with_unfolding_all decide⟩
  · intro s q h hq
    rw [format_currency_neg s q h hq, toList_mk]
    constructor
    · simp only [List.filter_cons, hm, he, if_true]
      rw [show fmtGroupChars (roundHalfEven (-q)).toNat =
        commaGroup (natDecRep (roundHalfEven (-q)).toNat) from rfl,
        filter_commaGroup _ _ (by decide) (fun c hc => by
          obtain ⟨d, hlt, rfl⟩ := natDecRep_mem _ c hc
          simp [bne_iff_ne, (digitChar_facts d hlt).2.2.2.2.2.2.2.1])]
    · intro hmem
      simp only [List.mem_cons] at hmem
      rcases hmem with h1 | h1 | h1
      · exact absurd h1 (by decide)
      · exact absurd h1 (by decide)
      · exact dot_not_mem_fmtGroup _ h1
  · intro s q h hq
    rw [format_currency_nonneg s q h hq, toList_mk]
    constructor
    · simp only [List.filter_cons, he, if_true]
      rw [show fmtGroupChars (roundHalfEven q).toNat =
        commaGroup (natDecRep (roundHalfEven q).toNat) from rfl,
        filter_commaGroup _ _ (by decide) (fun c hc => by
          obtain ⟨d, hlt, rfl⟩ := natDecRep_mem _ c hc
          simp [bne_iff_ne, (digitChar_facts d hlt).2.2.2.2.2.2.2.1])]
    · intro hmem
      simp only [List.mem_cons] at hmem
      rcases hmem with h1 | h1
      · exact absurd h1 (by decide)
      · exact dot_not_mem_fmtGroup _ h1

/-- Witness for claim C9 on a rejected input and a negative amount. -/
theorem claim_C9_witness :
    format_currency "oops" = "€0" ∧
    '.' ∉ (format_currency "-1234").toList :=
  ⟨claim_C9.1 "oops" (by with_unfolding_all decide),
   (claim_C9.2.1 "-1234" (-1234) (by with_unfolding_all decide)
     (by norm_num)).2⟩

/-- Claim C10 (confirmed): currency formatting followed by numeric
normalization is the identity on integers given as their decimal string
representation: for every integer `n`,
`clean_numeric_value (format_currency (str n)) = n`. -/
theorem claim_C10 :
    ∀ n : ℤ, clean_numeric_value (format_currency (intRepr n)) = (n : ℚ) := by
  intro n
  by_cases hn : (n : ℚ) < 0
  · have hni : n < 0 := by exact_mod_cast hn
    rw [format_currency_neg _ _ (pyFloat_intRepr n) hn,
      show -(n : ℚ) = ((-n : ℤ) : ℚ) by push_cast; ring,
      roundHalfEven_intCast,
      show fmtGroupChars (-n).toNat =
        commaGroup (natDecRep (-n).toNat) from rfl,
      clean_format_chars_neg _ (natDecRep_ne_nil _) (natDecRep_mem _),
      natDecRep_val]
    have h1 : ((-n).toNat : ℤ) = -n := Int.toNat_of_nonneg (by omega)
    have h2 : (((-n).toNat : ℕ) : ℚ) = ((-n : ℤ) : ℚ) := by
      exact_mod_cast congrArg (fun z : ℤ => (z : ℚ)) h1
    rw [h2]
    push_cast
    ring
  · have hni : 0 ≤ n := by exact_mod_cast not_lt.mp hn
    rw [format_currency_nonneg _ _ (pyFloat_intRepr n) (not_lt.mp hn),
      roundHalfEven_intCast,
      show fmtGroupChars n.toNat = commaGroup (natDecRep n.toNat) from rfl,
      clean_format_chars_pos _ (natDecRep_ne_nil _) (natDecRep_mem _),
      natDecRep_val]
    exact_mod_cast congrArg (fun z : ℤ => (z : ℚ)) (Int.toNat_of_nonneg hni)
